import Mathlib

/-!
Shallow embedding of the Holocene-Calendar timeline application
(`src/js/app.js`) and verification of its specification claims.

JS numbers are modelled as `Int` (all quantities involved are integral,
except the pixel scale, modelled as `ℚ`); the `NaN` sentinel returned on
parse failure is modelled as `Option.none`; JS strings are processed as
`List Char`.
-/

namespace HoloceneApp

/-- Character-level uppercase, modelling JS `String.prototype.toUpperCase`
on the ASCII strings the program handles. -/
def jsToUpperCase (s : String) : String :=
  String.mk (s.data.map Char.toUpper)

/-- `toHoloceneYear(year, era)` from `app.js`: CE/AD ↦ `year + 10000`,
BCE/BC ↦ `10001 - year`, HE ↦ `year`; an unrecognized era is treated as CE
(after a console warning, which is outside the embedding). -/
def toHoloceneYear (year : Int) (era : String := "CE") : Int :=
  let e := jsToUpperCase era
  if e = "CE" ∨ e = "AD" then year + 10000
  else if e = "BCE" ∨ e = "BC" then 10001 - year
  else if e = "HE" then year
  else year + 10000

/-- The record `{ year, era }` returned by `fromHoloceneYear`. -/
structure CEDate where
  year : Int
  era : String
deriving DecidableEq, Repr

/-- `fromHoloceneYear(heYear)` from `app.js`: `≥ 10001` ↦ CE, `= 10000` ↦
1 BCE, and every smaller (including negative) HE year ↦ `10001 - heYear` BCE. -/
def fromHoloceneYear (heYear : Int) : CEDate :=
  if heYear ≥ 10001 then ⟨heYear - 10000, "CE"⟩
  else if heYear = 10000 then ⟨1, "BCE"⟩
  else if heYear > 0 then ⟨10001 - heYear, "BCE"⟩
  else ⟨10001 - heYear, "BCE"⟩

/-! ### Free-text date parser (`parseDateToHEWithCirca`, `parseCEDateToHE`)

The JS regexes are deterministic on their inputs (every optional/starred
piece is followed by a character class disjoint from it), so each one is
embedded as a straight-line recursive matcher over `List Char`. -/

/-- ASCII whitespace, modelling the `\s` class of the JS regexes on the
ASCII strings the program handles. -/
def isWsChar (c : Char) : Bool :=
  c = ' ' || c = '\t' || c = '\n' || c = '\r' || c = '\x0b' || c = '\x0c'

/-- `String.prototype.trim`: strip leading and trailing whitespace. -/
def jsTrim (s : List Char) : List Char :=
  ((s.dropWhile isWsChar).reverse.dropWhile isWsChar).reverse

/-- Uppercase a character list (JS `toUpperCase` on ASCII data). -/
def toUpperL (s : List Char) : List Char := s.map Char.toUpper

/-- Lowercase a character list (JS `toLowerCase` on ASCII data). -/
def toLowerL (s : List Char) : List Char := s.map Char.toLower

/-- Consume one optional literal dot, as the `\.?` regex pieces do. -/
def dropDot : List Char → List Char
  | '.' :: r => r
  | r => r

/-- `parseInt(ds, 10)` on a nonempty all-digit capture group. -/
def digitsToNat (ds : List Char) : Nat :=
  ds.foldl (fun n c => n * 10 + (c.toNat - '0'.toNat)) 0

/-- Whether `HE` occurs as a substring, modelling `strUpper.includes('HE')`. -/
def containsHE : List Char → Bool
  | [] => false
  | c :: rest => (c = 'H' && rest.head? = some 'E') || containsHE rest

/-- The regex `^(?:HE\s*)?(\d+)(?:\s*HE)?$` applied to the uppercased
string: returns the captured digit group's value.  (Skipping the optional
`HE` prefix can never rescue a failed match, since `\d+` cannot match at
an `H`, so the matcher commits to the prefix when present.) -/
def matchHE (s : List Char) : Option Nat :=
  let body : List Char → Option Nat := fun t =>
    let ds := t.takeWhile Char.isDigit
    let rest := t.drop ds.length
    if ds.isEmpty then none
    else if rest.isEmpty then some (digitsToNat ds)
    else if rest.dropWhile isWsChar = ['H', 'E'] then some (digitsToNat ds)
    else none
  match s with
  | 'H' :: 'E' :: rest => body (rest.dropWhile isWsChar)
  | t => body t

/-- The HE rule of `parseDateToHEWithCirca`: the regex must match *and*
the string must contain `HE` (`if (heMatch && strUpper.includes('HE'))`). -/
def matchHERule (s : List Char) : Option Nat :=
  if containsHE s then matchHE s else none

/-- The regex `^(\d+)\s*B\.?\s*C\.?\s*(?:E\.?)?$` (BCE/BC with optional
dots) applied to the uppercased string. -/
def matchBCE (s : List Char) : Option Nat :=
  let ds := s.takeWhile Char.isDigit
  if ds.isEmpty then none
  else
    match (s.drop ds.length).dropWhile isWsChar with
    | 'B' :: r1 =>
      match (dropDot r1).dropWhile isWsChar with
      | 'C' :: r2 =>
        match (dropDot r2).dropWhile isWsChar with
        | [] => some (digitsToNat ds)
        | 'E' :: r3 => if dropDot r3 = [] then some (digitsToNat ds) else none
        | _ => none
      | _ => none
    | _ => none

/-- The regex `^(\d+)\s*(?:C\.?\s*E\.?|A\.?\s*D\.?)$` (CE/AD with optional
dots) applied to the uppercased string. -/
def matchCE (s : List Char) : Option Nat :=
  let ds := s.takeWhile Char.isDigit
  if ds.isEmpty then none
  else
    match (s.drop ds.length).dropWhile isWsChar with
    | 'C' :: r1 =>
      match (dropDot r1).dropWhile isWsChar with
      | 'E' :: r2 => if dropDot r2 = [] then some (digitsToNat ds) else none
      | _ => none
    | 'A' :: r1 =>
      match (dropDot r1).dropWhile isWsChar with
      | 'D' :: r2 => if dropDot r2 = [] then some (digitsToNat ds) else none
      | _ => none
    | _ => none

/-- The regex `^-(\d+)$` (leading minus: treat as BCE). -/
def matchNeg : List Char → Option Nat
  | '-' :: ds => if ds.isEmpty then none
      else if ds.all Char.isDigit then some (digitsToNat ds) else none
  | _ => none

/-- The regex `^(\d+)$` (bare unmarked integer). -/
def matchPlain (s : List Char) : Option Nat :=
  if s.isEmpty then none
  else if s.all Char.isDigit then some (digitsToNat s) else none

/-- The circa prefix `^(?:c\.?|circa)\s*` (case-insensitive), followed by
the code's extra `.trim()`.  Note the JS alternation is ordered: on any
string starting with `c`/`C` the first branch `c\.?` already succeeds and
the regex ends in `\s*`, so the `circa` branch is unreachable — the match
always consumes just the `c`, an optional dot, and trailing whitespace. -/
def stripCirca : List Char → Option (List Char)
  | c :: rest =>
    if c = 'c' ∨ c = 'C' then some (jsTrim ((dropDot rest).dropWhile isWsChar))
    else none
  | [] => none

/-- Circa-prefix handling of `parseDateToHEWithCirca`: the circa flag and
the remaining string. -/
def afterCirca (str1 : List Char) : Bool × List Char :=
  match stripCirca str1 with
  | some r => (true, r)
  | none => (false, str1)

/-- The result record `{ year, circa }` of `parseDateToHEWithCirca`; the
`NaN` year returned on parse failure is modelled as `none`. -/
structure ParseResult where
  year : Option Int
  circa : Bool
deriving DecidableEq, Repr

/-- `parseDateToHEWithCirca` accepts either a JS number or a string. -/
inductive DateInput where
  | num (n : Int)
  | str (s : String)

/-- Rule chain of `parseDateToHEWithCirca` after the `present` check and
circa stripping, applied to the uppercased remaining string: HE marker,
BCE/BC (with the round-number circa bump), CE/AD, leading minus (BCE with
the same bump), bare integer (taken as HE); otherwise the NaN sentinel
(note the code then reports `circa: false` even if a circa prefix was
consumed). -/
def parseStr (isCirca : Bool) (strUpper : List Char) : ParseResult :=
  match matchHERule strUpper with
  | some n => ⟨some (n : Int), isCirca⟩
  | none =>
  match matchBCE strUpper with
  | some n0 =>
    let n : Nat := if isCirca ∧ n0 % 10 = 0 ∧ n0 ≠ 10000 then n0 + 1 else n0
    if n = 0 ∨ n = 1 then ⟨some 10000, isCirca⟩
    else ⟨some (toHoloceneYear (n : Int) "BCE"), isCirca⟩
  | none =>
  match matchCE strUpper with
  | some n =>
    if n = 0 then ⟨some 10000, isCirca⟩
    else ⟨some (toHoloceneYear (n : Int) "CE"), isCirca⟩
  | none =>
  match matchNeg strUpper with
  | some n0 =>
    let n : Nat := if isCirca ∧ n0 % 10 = 0 ∧ n0 ≠ 10000 then n0 + 1 else n0
    if n = 0 ∨ n = 1 then ⟨some 10000, isCirca⟩
    else ⟨some (toHoloceneYear (n : Int) "BCE"), isCirca⟩
  | none =>
  match matchPlain strUpper with
  | some n => ⟨some (n : Int), isCirca⟩
  | none => ⟨none, false⟩

/-- `parseDateToHEWithCirca(dateInput)` from `app.js`.  `now` is the value
of `getCurrentHoloceneYear()` (the wall clock is outside the embedding). -/
def parseDateToHEWithCirca (now : Int) : DateInput → ParseResult
  | .num n => ⟨some n, false⟩
  | .str s =>
    if toLowerL (jsTrim s.data) = "present".data then ⟨some now, false⟩
    else
      parseStr (afterCirca (jsTrim s.data)).1
        (toUpperL (afterCirca (jsTrim s.data)).2)

/-- `parseDateToHE(dateInput)` from `app.js`: the `year` field only. -/
def parseDateToHE (now : Int) (input : DateInput) : Option Int :=
  (parseDateToHEWithCirca now input).year

/-- `parseCEDateToHE(dateInput)` from `app.js`: numbers and bare digit
strings default to CE; BCE/BC, CE/AD and leading minus as in the base
grammar; no `HE`, `present` or circa handling; `NaN` on failure. -/
def parseCEDateToHE : DateInput → Option Int
  | .num n => some (n + 10000)
  | .str s =>
    let u := toUpperL (jsTrim s.data)
    match matchBCE u with
    | some n =>
      if n = 0 ∨ n = 1 then some 10000 else some (toHoloceneYear (n : Int) "BCE")
    | none =>
    match matchCE u with
    | some n =>
      if n = 0 then some 10000 else some (toHoloceneYear (n : Int) "CE")
    | none =>
    match matchNeg u with
    | some n =>
      if n = 0 ∨ n = 1 then some 10000 else some (toHoloceneYear (n : Int) "BCE")
    | none =>
    match matchPlain u with
    | some n =>
      if n = 0 then some 10000 else some (toHoloceneYear (n : Int) "CE")
    | none => none

/-! ### Pixel/year conversion (`yearToPixels`, `pixelsToYear`)

`CONFIG.pxPerYear` is a mutable, possibly fractional scale (initially 5,
clamped to [0.5, 20]); it is passed explicitly and modelled as `ℚ`. -/

/-- The initial value of `CONFIG.pxPerYear`. -/
def CONFIG_pxPerYear : ℚ := 5

/-- `yearToPixels(year)`: negative years clamp to offset 0. -/
def yearToPixels (pxPerYear : ℚ) (year : Int) : ℚ :=
  ((max 0 year : Int) : ℚ) * pxPerYear

/-- `pixelsToYear(px) = Math.round(px / CONFIG.pxPerYear)`; `Math.round`
rounds half toward `+∞`, which is Mathlib's `round`. -/
def pixelsToYear (pxPerYear : ℚ) (px : ℚ) : Int :=
  round (px / pxPerYear)

/-! ### Channel allocator (`resetChannels`, `findAvailableChannel`)

One side's occupancy (`channelOccupancy[side]`) is a sparse array of
interval lists, modelled as a total function `Nat → List RangeInterval`
(the JS `if (!channels[i]) channels[i] = []` initialisation makes absent
entries behave as `[]`).  `findAvailableChannel` both returns the lane and
mutates the occupancy, so the embedding returns the pair. -/

/-- A `{ start, end }` record pushed into a lane (`end` is a Lean keyword,
hence `endY`). -/
structure RangeInterval where
  start : Int
  endY : Int
deriving DecidableEq, Repr

/-- The JS overlap test `!(endYear < r.start || startYear > r.end)`. -/
def overlapsB (startYear endYear : Int) (r : RangeInterval) : Bool :=
  !(endYear < r.start || startYear > r.endY)

/-- `CHANNEL_CONFIG.channelWidth` from `app.js`. -/
def CHANNEL_CONFIG_channelWidth : ℚ := 20

/-- `CHANNEL_CONFIG.maxChannels` from `app.js`. -/
def CHANNEL_CONFIG_maxChannels : Nat := 15

/-- The `{ maxChannels, channelWidth, maxOffset }` record returned by
`getMobileChannelConfig`. -/
structure ChannelLimits where
  maxChannels : Nat
  channelWidth : ℚ
  maxOffset : ℚ
deriving DecidableEq, Repr

/-- `getMobileChannelConfig()` from `app.js`, with `window.innerWidth`
passed explicitly. -/
def getMobileChannelConfig (innerWidth : ℚ) : ChannelLimits :=
  if innerWidth < 600 then ⟨4, 15, 60⟩
  else ⟨CHANNEL_CONFIG_maxChannels, CHANNEL_CONFIG_channelWidth,
        (CHANNEL_CONFIG_maxChannels : ℚ) * CHANNEL_CONFIG_channelWidth⟩

/-- `resetChannels()`: one side's occupancy becomes empty. -/
def emptyChannels : Nat → List RangeInterval := fun _ => []

/-- Point update of the sparse occupancy array. -/
def updateChannels (channels : Nat → List RangeInterval) (i : Nat)
    (v : List RangeInterval) : Nat → List RangeInterval :=
  fun j => if j = i then v else channels j

/-- The `for (let i = 1; i <= config.maxChannels; i++)` loop of
`findAvailableChannel`: scan from lane `i` with `fuel` iterations left;
on a free lane, push the interval and return the lane; when the loop
exhausts, return `maxChannels` with the occupancy unchanged. -/
def findAvailableChannelLoop (startYear endYear : Int) (maxChannels : Nat)
    (channels : Nat → List RangeInterval) (i : Nat) :
    Nat → Nat × (Nat → List RangeInterval)
  | 0 => (maxChannels, channels)
  | fuel + 1 =>
    if (channels i).any (overlapsB startYear endYear) then
      findAvailableChannelLoop startYear endYear maxChannels channels (i + 1) fuel
    else
      (i, updateChannels channels i (channels i ++ [⟨startYear, endYear⟩]))

/-- `findAvailableChannel(side, startYear, endYear)` from `app.js`, acting
on one side's occupancy; `maxChannels` is `getMobileChannelConfig().maxChannels`.
The scan starts at lane 1 (lane 0 intentionally unused) and performs
exactly `maxChannels` iterations. -/
def findAvailableChannel (maxChannels : Nat)
    (channels : Nat → List RangeInterval) (startYear endYear : Int) :
    Nat × (Nat → List RangeInterval) :=
  findAvailableChannelLoop startYear endYear maxChannels channels 1 maxChannels

/-- Sequential allocation of several ranges within one render pass,
threading the occupancy state through `findAvailableChannel`. -/
def allocateRanges (maxChannels : Nat) (channels : Nat → List RangeInterval) :
    List (Int × Int) → List Nat × (Nat → List RangeInterval)
  | [] => ([], channels)
  | (s, e) :: rest =>
    let fst := findAvailableChannel maxChannels channels s e
    let more := allocateRanges maxChannels fst.2 rest
    (fst.1 :: more.1, more.2)

/-! ### Events, filtering, load-time side assignment and the render list -/

/-- The event fields relevant to filtering, partitioning and side
assignment.  `id` models JS object identity: each merged event is a
distinct object, identified by its position in the sorted master list.
`categories` is `none` when the field is absent. -/
structure Event where
  id : Nat := 0
  year : Int := 0
  endYear : Option Int := none
  categories : Option (List String) := none
  side : String := ""
deriving DecidableEq, Repr, Inhabited

/-- JS truthiness of `e.endYear` (the `!e.endYear` partition test):
absent and `0` are falsy.  (A `NaN` endYear, also falsy, has no
representative in the `Int` model.) -/
def hasEndYear (e : Event) : Bool :=
  match e.endYear with
  | none => false
  | some v => v != 0

/-- `eventPassesFilter(event)` from `app.js`; `activeFilters` is the
`STATE.activeFilters` JS `Set`. -/
def eventPassesFilter (activeFilters : Finset String) (event : Event) : Bool :=
  match event.categories with
  | none => true
  | some cats =>
    if cats.length = 0 then true
    else if activeFilters.card = 0 then false
    else cats.any fun cat => decide (cat ∈ activeFilters)

/-- Stable insertion by an integer key: the new element goes after every
element with a strictly smaller key and before equal-keyed ones it
originally preceded. -/
def insertByKey {α : Type} (key : α → Int) (a : α) : List α → List α
  | [] => [a]
  | b :: bs => if key b < key a then b :: insertByKey key a bs else a :: b :: bs

/-- Stable sort by an integer key, modelling the JS
`.sort((a, b) => key(a) - key(b))` calls (`Array.prototype.sort` is
stable, and all stable sorts by the same key agree). -/
def stableSortByKey {α : Type} (key : α → Int) : List α → List α
  | [] => []
  | a :: as => insertByKey key a (stableSortByKey key as)

/-- The side pre-assignment of `loadAllDatasets`: sort the full merged
list by start year and assign alternating `left`/`right` by position
(`index % 2`).  The `id` stamped here models the object identity of the
mutated event at that position. -/
def assignSides (events : List Event) : List Event :=
  let allSorted := stableSortByKey (fun e => e.year) events
  (List.range allSorted.length).map fun i =>
    { allSorted.getD i default with
        id := i
        side := if i % 2 = 0 then "left" else "right" }

/-- `loadAllDatasets`' effect on the master event list: merge (the input
is the concatenation of the datasets' events), sort by year, assign
sides.  Fetching, category merging and UI building are outside the
embedding. -/
def loadAllDatasets (raw : List Event) : List Event :=
  assignSides (stableSortByKey (fun e => e.year) raw)

/-- A `{ ...e, isRange, sortYear }` spread copy built by `renderTimeline`. -/
structure RenderItem where
  ev : Event
  isRange : Bool
  sortYear : Int
deriving DecidableEq, Repr

/-- `getFilteredEvents()` from `app.js`. -/
def getFilteredEvents (activeFilters : Finset String)
    (pointEvents rangeEvents : List Event) : List Event × List Event :=
  (pointEvents.filter (eventPassesFilter activeFilters),
   rangeEvents.filter (eventPassesFilter activeFilters))

/-- The `allEventsForRender` list of `renderTimeline`: filtered point and
range events, spread-copied with `isRange`/`sortYear`, concatenated and
stably sorted by `sortYear` (= start year). -/
def renderEventList (allEvents : List Event) (activeFilters : Finset String) :
    List RenderItem :=
  let pointEvents := allEvents.filter fun e => !hasEndYear e
  let rangeEvents := allEvents.filter hasEndYear
  let filtered := getFilteredEvents activeFilters pointEvents rangeEvents
  stableSortByKey (fun r => r.sortYear)
    ((filtered.1.map fun e => ⟨e, false, e.year⟩) ++
     (filtered.2.map fun e => ⟨e, true, e.year⟩))

/-- Load followed by a render under a given active-filter set. -/
def renderTimeline (raw : List Event) (activeFilters : Finset String) :
    List RenderItem :=
  renderEventList (loadAllDatasets raw) activeFilters

/-! ### Focus state (`handleEventClick`) -/

/-- The `STATE.lockedEvent` / `STATE.hoveredEvent` pair; elements are
identified by `Nat` handles (JS DOM-element identity). -/
structure FocusState where
  lockedEvent : Option Nat := none
  hoveredEvent : Option Nat := none
deriving DecidableEq, Repr

/-- `handleEventClick(eventEl)` from `app.js`, restricted to its effect on
the focus state: clicking the locked element unlocks it and clears hover;
otherwise any previous lock and any hover on a different element are
cleared and the clicked element becomes locked.  (Class/z-index styling,
nudging and scrolling act on the rendering substrate.) -/
def handleEventClick (st : FocusState) (el : Nat) : FocusState :=
  if st.lockedEvent = some el then
    { lockedEvent := none, hoveredEvent := none }
  else
    { lockedEvent := some el,
      hoveredEvent := if st.hoveredEvent = some el then st.hoveredEvent else none }

/-! ## Claim theorems -/

/-- Claim C1, counterexample: the claim as stated fails on the code.
`toHoloceneYear(0, 'BCE')` is `10001 - 0 = 10001`, not `10000` (the
0-BCE collapse lives in the parsers, not in `toHoloceneYear`), and the
CE round trip is not the identity at the nonzero integer `y = -5`
(`toHoloceneYear(-5, 'CE') = 9995` comes back as `{year: 6, era: 'BCE'}`). -/
theorem era_roundtrip_claim_false :
    toHoloceneYear 0 "BCE" ≠ 10000 ∧
    fromHoloceneYear (toHoloceneYear (-5) "CE") ≠ ⟨-5, "CE"⟩ := by
  decide

/-- Claim C1, amended: for every integer `y ≥ 1`, converting `y` CE to
Holocene Era and back is the identity; at the BCE boundary,
`toHoloceneYear(1, 'BCE') = 10000` while `toHoloceneYear(0, 'BCE') = 10001`,
and it is the parser that collapses the boundary:
`parseDateToHE("0 BCE") = parseDateToHE("1 BCE") = 10000`. -/
theorem era_roundtrip_amended :
    (∀ y : Int, 1 ≤ y → fromHoloceneYear (toHoloceneYear y "CE") = ⟨y, "CE"⟩) ∧
    toHoloceneYear 1 "BCE" = 10000 ∧
    toHoloceneYear 0 "BCE" = 10001 ∧
    (∀ now : Int, parseDateToHE now (.str "0 BCE") = some 10000 ∧
      parseDateToHE now (.str "1 BCE") = some 10000) := by
  refine ⟨fun y hy => ?_, by decide, by decide, fun now => ⟨rfl, rfl⟩⟩
  show fromHoloceneYear (y + 10000) = ⟨y, "CE"⟩
  unfold fromHoloceneYear
  rw [if_pos (by omega : y + 10000 ≥ 10001)]
  congr 1
  omega

/-- Claim C1, witness: the amended round trip at `y = 2`. -/
theorem era_roundtrip_amended_witness :
    fromHoloceneYear (toHoloceneYear 2 "CE") = ⟨2, "CE"⟩ ∧
    parseDateToHE 0 (.str "0 BCE") = some 10000 :=
  ⟨era_roundtrip_amended.1 2 (by decide), (era_roundtrip_amended.2.2.2 0).1⟩

/-- Claim C2, counterexample: the circa bump moves the value the other
way.  `parseDateToHE("3150 BCE") = 6851` but
`parseDateToHE("c. 3150 BCE") = 6850`, one *less*, not one greater. -/
theorem circa_bump_claim_false :
    parseDateToHE 0 (.str "c. 3150 BCE") = some 6850 ∧
    parseDateToHE 0 (.str "3150 BCE") = some 6851 ∧
    (6850 : Int) ≠ 6851 + 1 := by
  refine ⟨rfl, rfl, by decide⟩

/-- Claim C2, amended: `parseDateToHE("c. 3150 BCE")` yields an HE value
one *less* than `parseDateToHE("3150 BCE")` (the bump increments the BCE
year, which decreases the HE value by one), while
`parseDateToHE("c. 3155 BCE")` equals `parseDateToHE("3155 BCE")`
(non-round BCE years are unaffected by the circa prefix). -/
theorem circa_bump_amended : ∀ now : Int,
    parseDateToHE now (.str "3150 BCE") = some 6851 ∧
    parseDateToHE now (.str "c. 3150 BCE") = some (6851 - 1) ∧
    parseDateToHE now (.str "c. 3155 BCE") = parseDateToHE now (.str "3155 BCE") :=
  fun _ => ⟨rfl, rfl, rfl⟩

/-- Claim C3: the base free-text parser's exact values on the four sample
inputs (`12025 HE`, `500 BCE`, `44 BC`, and the bare integer `2025`,
taken as already-HE), and the Common-Era-only variant's value on the bare
integer `2025` (defaulted to CE). -/
theorem parse_sample_values : ∀ now : Int,
    parseDateToHE now (.str "12025 HE") = some 12025 ∧
    parseDateToHE now (.str "500 BCE") = some 9501 ∧
    parseDateToHE now (.str "44 BC") = some 9957 ∧
    parseDateToHE now (.str "2025") = some 2025 ∧
    parseCEDateToHE (.str "2025") = some 12025 :=
  fun _ => ⟨rfl, rfl, rfl, rfl, rfl⟩

/-- Claim C9: whenever an input string matches none of the grammar rules
(it is not `present`, and after circa stripping the uppercased remainder
matches neither the HE rule, nor BCE/BC, nor CE/AD, nor a leading minus,
nor a bare integer), the parser returns the not-a-number sentinel with
`circa: false`.  The embedding is a total function, mirroring that every
code path of `parseDateToHEWithCirca` returns normally (never throws);
the `console.warn` diagnostic is a logging side effect outside the
embedding. -/
theorem parse_failure_sentinel (now : Int) (s : String)
    (hpres : toLowerL (jsTrim s.data) ≠ "present".data)
    (hhe : matchHERule (toUpperL (afterCirca (jsTrim s.data)).2) = none)
    (hbce : matchBCE (toUpperL (afterCirca (jsTrim s.data)).2) = none)
    (hce : matchCE (toUpperL (afterCirca (jsTrim s.data)).2) = none)
    (hneg : matchNeg (toUpperL (afterCirca (jsTrim s.data)).2) = none)
    (hplain : matchPlain (toUpperL (afterCirca (jsTrim s.data)).2) = none) :
    parseDateToHEWithCirca now (.str s) = ⟨none, false⟩ := by
  simp only [parseDateToHEWithCirca]
  rw [if_neg hpres]
  simp only [parseStr, hhe, hbce, hce, hneg, hplain]

/-- Claim C9, witness: the input `hello kitty` matches no rule and parses
to the sentinel. -/
theorem parse_failure_sentinel_witness :
    parseDateToHEWithCirca 0 (.str "hello kitty") = ⟨none, false⟩ :=
  parse_failure_sentinel 0 "hello kitty" (by decide) (by decide) (by decide)
    (by decide) (by decide) (by decide)

/-- Claim C4: at every fixed positive scale, converting a year `y ≥ 0` to
pixels and back is the identity: `yearToPixels` clamps at `max 0 y` (a
no-op for `y ≥ 0`) and `pixelsToYear` rounds `px / scale`, recovering `y`
exactly. -/
theorem pixels_year_roundtrip (y : Int) (pxPerYear : ℚ) (hy : 0 ≤ y)
    (hs : 0 < pxPerYear) :
    pixelsToYear pxPerYear (yearToPixels pxPerYear y) = y := by
  unfold pixelsToYear yearToPixels
  rw [max_eq_right hy, mul_div_cancel_right₀ _ (ne_of_gt hs), round_intCast]

/-- Claim C4, witness: the round trip at `y = 3` and the initial scale
`CONFIG.pxPerYear = 5`. -/
theorem pixels_year_roundtrip_witness :
    pixelsToYear CONFIG_pxPerYear (yearToPixels CONFIG_pxPerYear 3) = 3 :=
  pixels_year_roundtrip 3 CONFIG_pxPerYear (by decide) (by norm_num [CONFIG_pxPerYear])

/-- Claim C6: an event whose `categories` field is absent or empty always
passes the filter; an event with a nonempty category list passes iff the
active-filter set is nonempty and some category of the event is active;
in particular an empty active-filter set hides every categorized event. -/
theorem filter_pass_semantics (activeFilters : Finset String) (event : Event) :
    ((event.categories = none ∨ event.categories = some []) →
      eventPassesFilter activeFilters event = true) ∧
    (∀ cats, event.categories = some cats → cats ≠ [] →
      (eventPassesFilter activeFilters event = true ↔
        activeFilters.Nonempty ∧ ∃ c ∈ cats, c ∈ activeFilters)) ∧
    (activeFilters = ∅ → ∀ cats, event.categories = some cats → cats ≠ [] →
      eventPassesFilter activeFilters event = false) := by
  refine ⟨?_, ?_, ?_⟩
  · rintro (h | h) <;> simp [eventPassesFilter, h]
  · intro cats hc hne
    simp only [eventPassesFilter, hc]
    rw [if_neg (by simpa using hne)]
    by_cases hcard : activeFilters.card = 0
    · rw [if_pos hcard]
      simp [Finset.card_eq_zero.mp hcard]
    · rw [if_neg hcard]
      simp only [List.any_eq_true, decide_eq_true_eq]
      constructor
      · rintro ⟨c, hcmem, hcact⟩
        exact ⟨⟨c, hcact⟩, c, hcmem, hcact⟩
      · rintro ⟨-, c, hcmem, hcact⟩
        exact ⟨c, hcmem, hcact⟩
  · intro hempty cats hc hne
    simp only [eventPassesFilter, hc]
    rw [if_neg (by simpa using hne), if_pos (by simp [hempty])]

/-- Claim C6, witness: a categorized event passing under an active
category, a categorized event hidden by the empty filter set, and an
uncategorized event passing under the empty filter set. -/
theorem filter_pass_semantics_witness :
    eventPassesFilter {"science"} { categories := some ["science", "war"] } = true ∧
    eventPassesFilter ∅ { categories := some ["science"] } = false ∧
    eventPassesFilter ∅ { categories := none } = true :=
  ⟨((filter_pass_semantics {"science"} { categories := some ["science", "war"] }).2.1
      ["science", "war"] rfl (by decide)).mpr
      ⟨⟨"science", by decide⟩, "science", by decide, by decide⟩,
   (filter_pass_semantics ∅ { categories := some ["science"] }).2.2 rfl
      ["science"] rfl (by decide),
   (filter_pass_semantics ∅ { categories := none }).1 (Or.inl rfl)⟩

/-- Claim C8: clicking when nothing is locked locks the clicked element;
clicking the locked element again clears the lock; clicking a distinct
element while another is locked transfers the lock directly.  At most one
element is ever locked: `lockedEvent` is a single `Option`-valued slot. -/
theorem click_lock_transitions (st : FocusState) (el : Nat) :
    (st.lockedEvent = none → (handleEventClick st el).lockedEvent = some el) ∧
    (st.lockedEvent = some el → (handleEventClick st el).lockedEvent = none) ∧
    (∀ other, st.lockedEvent = some other → other ≠ el →
      (handleEventClick st el).lockedEvent = some el) := by
  refine ⟨?_, ?_, ?_⟩ <;> unfold handleEventClick
  · intro h
    rw [if_neg (by simp [h])]
  · intro h
    rw [if_pos h]
  · intro other h hne
    rw [if_neg (by simp [h]; exact hne)]

/-- Claim C8, witness: the three transitions at concrete states, clicking
element `5`. -/
theorem click_lock_transitions_witness :
    (handleEventClick ⟨none, none⟩ 5).lockedEvent = some 5 ∧
    (handleEventClick ⟨some 5, none⟩ 5).lockedEvent = none ∧
    (handleEventClick ⟨some 3, none⟩ 5).lockedEvent = some 5 :=
  ⟨(click_lock_transitions ⟨none, none⟩ 5).1 rfl,
   (click_lock_transitions ⟨some 5, none⟩ 5).2.1 rfl,
   (click_lock_transitions ⟨some 3, none⟩ 5).2.2 3 rfl (by decide)⟩

/-! ### Helper lemmas for the channel-allocator loop -/

/-- One unfolding step of the lane-scan loop. -/
theorem findLoop_peel (s e : Int) (m : Nat) (ch : Nat → List RangeInterval)
    (i fuel : Nat) :
    findAvailableChannelLoop s e m ch i (fuel + 1) =
      if (ch i).any (overlapsB s e) then
        findAvailableChannelLoop s e m ch (i + 1) fuel
      else (i, updateChannels ch i ((ch i) ++ [⟨s, e⟩])) := rfl

/-- The scan never returns a lane below the start index (so never lane 0):
it returns either a visited lane `≥ i` or `maxChannels`. -/
theorem findLoop_lane_pos (s e : Int) (m : Nat) (hm : 1 ≤ m) (fuel : Nat) :
    ∀ (i : Nat) (ch : Nat → List RangeInterval), 1 ≤ i →
      1 ≤ (findAvailableChannelLoop s e m ch i fuel).1 := by
  induction fuel with
  | zero => intro i ch hi; exact hm
  | succ fuel ih =>
    intro i ch hi
    rw [findLoop_peel]
    split
    · exact ih (i + 1) ch (by omega)
    · exact hi

/-- When every lane the scan can visit is occupied, the loop falls off the
end: it returns `maxChannels` and leaves the occupancy unchanged. -/
theorem findLoop_all_occupied (s e : Int) (m : Nat) (fuel : Nat) :
    ∀ (i : Nat) (ch : Nat → List RangeInterval),
      (∀ j, i ≤ j → j < i + fuel → (ch j).any (overlapsB s e) = true) →
      findAvailableChannelLoop s e m ch i fuel = (m, ch) := by
  induction fuel with
  | zero => intro i ch _; rfl
  | succ fuel ih =>
    intro i ch h
    rw [findLoop_peel, if_pos (h i le_rfl (by omega))]
    exact ih (i + 1) ch (fun j h1 h2 => h j (by omega) (by omega))

/-- Sequential allocation when every lane `1..maxChannels` already holds
an interval overlapping each queried range: every range receives lane
`maxChannels` and nothing is recorded. -/
theorem allocateRanges_all_occupied (maxCh : Nat) :
    ∀ (ranges : List (Int × Int)) (channels : Nat → List RangeInterval),
      (∀ p ∈ ranges, ∀ i ∈ Finset.Icc 1 maxCh,
        (channels i).any (overlapsB p.1 p.2) = true) →
      allocateRanges maxCh channels ranges = (ranges.map fun _ => maxCh, channels)
  | [], _, _ => rfl
  | (s, e) :: rest, ch, hocc => by
    have h1 : findAvailableChannel maxCh ch s e = (maxCh, ch) := by
      show findAvailableChannelLoop s e maxCh ch 1 maxCh = _
      apply findLoop_all_occupied
      intro j hj1 hj2
      exact hocc (s, e) (by simp) j (Finset.mem_Icc.mpr ⟨hj1, by omega⟩)
    have h2 := allocateRanges_all_occupied maxCh rest ch
      (fun p hp i hi => hocc p (List.mem_cons_of_mem _ hp) i hi)
    simp only [allocateRanges, h1, h2, List.map]

/-- Claim C5: starting from one side's empty occupancy, two disjoint
ranges allocated in sequence both receive lane 1; two overlapping ranges
receive lanes 1 and 2 (different lanes); three mutually overlapping
ranges receive the distinct lanes 1, 2, 3; and the allocator never
assigns lane 0 (every result is `≥ 1`).  Disjointness/overlap is the
code's own interval test `!(end < r.start || start > r.end)`;
`maxCh` is `getMobileChannelConfig().maxChannels`, which is at least 3
in both viewport classes (15 desktop, 4 mobile). -/
theorem channel_allocator_lanes (maxCh : Nat) (hmax : 3 ≤ maxCh) :
    (∀ s1 e1 s2 e2 : Int, e2 < s1 ∨ s2 > e1 →
      (allocateRanges maxCh emptyChannels [(s1, e1), (s2, e2)]).1 = [1, 1]) ∧
    (∀ s1 e1 s2 e2 : Int, ¬(e2 < s1 ∨ s2 > e1) →
      (allocateRanges maxCh emptyChannels [(s1, e1), (s2, e2)]).1 = [1, 2]) ∧
    (∀ s1 e1 s2 e2 s3 e3 : Int, ¬(e2 < s1 ∨ s2 > e1) → ¬(e3 < s1 ∨ s3 > e1) →
      ¬(e3 < s2 ∨ s3 > e2) →
      (allocateRanges maxCh emptyChannels
        [(s1, e1), (s2, e2), (s3, e3)]).1 = [1, 2, 3]) ∧
    (∀ (channels : Nat → List RangeInterval) (s e : Int),
      1 ≤ (findAvailableChannel maxCh channels s e).1) := by
  obtain ⟨k, rfl⟩ : ∃ k, maxCh = k + 3 := ⟨maxCh - 3, by omega⟩
  refine ⟨?_, ?_, ?_, ?_⟩
  · intro s1 e1 s2 e2 h
    have he : findAvailableChannel (k + 3) emptyChannels s1 e1 =
        (1, updateChannels emptyChannels 1 [⟨s1, e1⟩]) := rfl
    have hocc1 : ((updateChannels emptyChannels 1 [⟨s1, e1⟩]) 1).any
        (overlapsB s2 e2) = false := by
      simp [updateChannels, emptyChannels, overlapsB]
      omega
    have h2 : findAvailableChannel (k + 3)
        (updateChannels emptyChannels 1 [⟨s1, e1⟩]) s2 e2 =
        (1, updateChannels (updateChannels emptyChannels 1 [⟨s1, e1⟩]) 1
          ((updateChannels emptyChannels 1 [⟨s1, e1⟩]) 1 ++ [⟨s2, e2⟩])) := by
      show findAvailableChannelLoop s2 e2 (k + 3)
        (updateChannels emptyChannels 1 [⟨s1, e1⟩]) 1 ((k + 2) + 1) = _
      rw [findLoop_peel, if_neg (by simp [hocc1])]
    simp only [allocateRanges, he, h2]
  · intro s1 e1 s2 e2 h
    have he : findAvailableChannel (k + 3) emptyChannels s1 e1 =
        (1, updateChannels emptyChannels 1 [⟨s1, e1⟩]) := rfl
    have hocc1 : ((updateChannels emptyChannels 1 [⟨s1, e1⟩]) 1).any
        (overlapsB s2 e2) = true := by
      simp [updateChannels, emptyChannels, overlapsB]
      omega
    have h2 : findAvailableChannel (k + 3)
        (updateChannels emptyChannels 1 [⟨s1, e1⟩]) s2 e2 =
        (2, updateChannels (updateChannels emptyChannels 1 [⟨s1, e1⟩]) 2 [⟨s2, e2⟩]) := by
      show findAvailableChannelLoop s2 e2 (k + 3)
        (updateChannels emptyChannels 1 [⟨s1, e1⟩]) 1 ((k + 2) + 1) = _
      rw [findLoop_peel, if_pos hocc1]
      show findAvailableChannelLoop s2 e2 (k + 3)
        (updateChannels emptyChannels 1 [⟨s1, e1⟩]) 2 ((k + 1) + 1) = _
      rw [findLoop_peel, if_neg (by simp [updateChannels, emptyChannels])]
      rfl
    simp only [allocateRanges, he, h2]
  · intro s1 e1 s2 e2 s3 e3 h12 h13 h23
    have he : findAvailableChannel (k + 3) emptyChannels s1 e1 =
        (1, updateChannels emptyChannels 1 [⟨s1, e1⟩]) := rfl
    have hocc12 : ((updateChannels emptyChannels 1 [⟨s1, e1⟩]) 1).any
        (overlapsB s2 e2) = true := by
      simp [updateChannels, emptyChannels, overlapsB]
      omega
    have h2 : findAvailableChannel (k + 3)
        (updateChannels emptyChannels 1 [⟨s1, e1⟩]) s2 e2 =
        (2, updateChannels (updateChannels emptyChannels 1 [⟨s1, e1⟩]) 2 [⟨s2, e2⟩]) := by
      show findAvailableChannelLoop s2 e2 (k + 3)
        (updateChannels emptyChannels 1 [⟨s1, e1⟩]) 1 ((k + 2) + 1) = _
      rw [findLoop_peel, if_pos hocc12]
      show findAvailableChannelLoop s2 e2 (k + 3)
        (updateChannels emptyChannels 1 [⟨s1, e1⟩]) 2 ((k + 1) + 1) = _
      rw [findLoop_peel, if_neg (by simp [updateChannels, emptyChannels])]
      rfl
    have hocc13 : ((updateChannels (updateChannels emptyChannels 1 [⟨s1, e1⟩]) 2
        [⟨s2, e2⟩]) 1).any (overlapsB s3 e3) = true := by
      simp [updateChannels, emptyChannels, overlapsB]
      omega
    have hocc23 : ((updateChannels (updateChannels emptyChannels 1 [⟨s1, e1⟩]) 2
        [⟨s2, e2⟩]) 2).any (overlapsB s3 e3) = true := by
      simp [updateChannels, emptyChannels, overlapsB]
      omega
    have h3 : findAvailableChannel (k + 3)
        (updateChannels (updateChannels emptyChannels 1 [⟨s1, e1⟩]) 2 [⟨s2, e2⟩]) s3 e3 =
        (3, updateChannels (updateChannels (updateChannels emptyChannels 1
          [⟨s1, e1⟩]) 2 [⟨s2, e2⟩]) 3 [⟨s3, e3⟩]) := by
      show findAvailableChannelLoop s3 e3 (k + 3)
        (updateChannels (updateChannels emptyChannels 1 [⟨s1, e1⟩]) 2 [⟨s2, e2⟩])
        1 ((k + 2) + 1) = _
      rw [findLoop_peel, if_pos hocc13]
      show findAvailableChannelLoop s3 e3 (k + 3)
        (updateChannels (updateChannels emptyChannels 1 [⟨s1, e1⟩]) 2 [⟨s2, e2⟩])
        2 ((k + 1) + 1) = _
      rw [findLoop_peel, if_pos hocc23]
      show findAvailableChannelLoop s3 e3 (k + 3)
        (updateChannels (updateChannels emptyChannels 1 [⟨s1, e1⟩]) 2 [⟨s2, e2⟩])
        3 (k + 1) = _
      rw [findLoop_peel, if_neg (by simp [updateChannels, emptyChannels])]
      rfl
    simp only [allocateRanges, he, h2, h3]
  · intro channels s e
    exact findLoop_lane_pos s e (k + 3) (by omega) (k + 3) 1 channels le_rfl

/-- Claim C5, witness: concrete allocations at the desktop configuration
`CHANNEL_CONFIG.maxChannels = 15`. -/
theorem channel_allocator_lanes_witness :
    (allocateRanges CHANNEL_CONFIG_maxChannels emptyChannels
      [(0, 10), (20, 30)]).1 = [1, 1] ∧
    (allocateRanges CHANNEL_CONFIG_maxChannels emptyChannels
      [(0, 10), (5, 30)]).1 = [1, 2] ∧
    (allocateRanges CHANNEL_CONFIG_maxChannels emptyChannels
      [(0, 10), (5, 30), (8, 9)]).1 = [1, 2, 3] ∧
    1 ≤ (findAvailableChannel CHANNEL_CONFIG_maxChannels emptyChannels 0 1).1 :=
  have h := channel_allocator_lanes CHANNEL_CONFIG_maxChannels (by decide)
  ⟨h.1 0 10 20 30 (by decide), h.2.1 0 10 5 30 (by decide),
   h.2.2.1 0 10 5 30 8 9 (by decide) (by decide) (by decide),
   h.2.2.2 emptyChannels 0 1⟩

/-- Claim C10: when every lane `1..maxChannels` on a side already holds an
interval overlapping each queried range, `findAvailableChannel` returns
`maxChannels` for every one of them without recording anything, so
arbitrarily many such ranges within one render pass all receive the same
lane index `maxChannels` and the occupancy is left unchanged. -/
theorem channel_overflow_behavior (maxCh : Nat)
    (channels : Nat → List RangeInterval) (ranges : List (Int × Int))
    (hocc : ∀ p ∈ ranges, ∀ i ∈ Finset.Icc 1 maxCh,
      (channels i).any (overlapsB p.1 p.2) = true) :
    allocateRanges maxCh channels ranges = (ranges.map fun _ => maxCh, channels) :=
  allocateRanges_all_occupied maxCh ranges channels hocc

/-- Claim C10, witness: with `maxChannels = 2` and both lanes holding
`[0, 100]`, two further overlapping ranges both receive lane 2 and the
occupancy is unchanged. -/
theorem channel_overflow_behavior_witness :
    allocateRanges 2 (fun _ => [⟨0, 100⟩]) [(10, 20), (50, 150)] =
      ([2, 2], fun _ => [⟨0, 100⟩]) :=
  channel_overflow_behavior 2 (fun _ => [⟨0, 100⟩]) [(10, 20), (50, 150)] (by decide)

/-! ### Helper lemmas for the render pipeline -/

/-- Membership through stable insertion. -/
theorem mem_insertByKey {α : Type} (key : α → Int) (a x : α) (l : List α) :
    x ∈ insertByKey key a l ↔ x = a ∨ x ∈ l := by
  induction l with
  | nil => simp [insertByKey]
  | cons b bs ih =>
    simp only [insertByKey]
    split
    · simp only [List.mem_cons, ih]
      tauto
    · simp only [List.mem_cons]

/-- Membership is preserved by the stable sort. -/
theorem mem_stableSortByKey {α : Type} (key : α → Int) (x : α) (l : List α) :
    x ∈ stableSortByKey key l ↔ x ∈ l := by
  induction l with
  | nil => simp [stableSortByKey]
  | cons a as ih =>
    simp only [stableSortByKey, mem_insertByKey, List.mem_cons, ih]

/-- Every rendered item's embedded event is one of the loaded events:
the render pipeline filters, copies and sorts, but never alters an event. -/
theorem renderItem_ev_mem (allEvents : List Event) (filters : Finset String)
    (r : RenderItem) (hr : r ∈ renderEventList allEvents filters) :
    r.ev ∈ allEvents := by
  simp only [renderEventList, getFilteredEvents] at hr
  rw [mem_stableSortByKey] at hr
  rcases List.mem_append.mp hr with h | h <;>
  · obtain ⟨e, he, heq⟩ := List.mem_map.mp h
    rw [← heq]
    exact (List.mem_filter.mp (List.mem_filter.mp he).1).1

/-- Within one load's output, the identity stamp determines the event:
sides are a function of the position in the sorted master list. -/
theorem assignSides_id_inj (events : List Event) (e1 e2 : Event)
    (h1 : e1 ∈ assignSides events) (h2 : e2 ∈ assignSides events)
    (hid : e1.id = e2.id) : e1 = e2 := by
  simp only [assignSides] at h1 h2
  obtain ⟨i1, hi1, heq1⟩ := List.mem_map.mp h1
  obtain ⟨i2, hi2, heq2⟩ := List.mem_map.mp h2
  subst heq1
  subst heq2
  have h12 : i1 = i2 := hid
  subst h12
  rfl

/-- Claim C7: the left/right side assigned at load time (alternating by
index in the fully sorted merged list) is unchanged by filter changes:
any two renders of the same loaded event set, under any two active-filter
sets, give the same event (identified by its load-time identity) the same
side. -/
theorem side_assignment_filter_invariant (raw : List Event) (f1 f2 : Finset String)
    (r1 r2 : RenderItem)
    (h1 : r1 ∈ renderTimeline raw f1) (h2 : r2 ∈ renderTimeline raw f2)
    (hid : r1.ev.id = r2.ev.id) : r1.ev.side = r2.ev.side := by
  have m1 : r1.ev ∈ loadAllDatasets raw := renderItem_ev_mem _ f1 r1 h1
  have m2 : r2.ev ∈ loadAllDatasets raw := renderItem_ev_mem _ f2 r2 h2
  have heq : r1.ev = r2.ev :=
    assignSides_id_inj (stableSortByKey (fun e => e.year) raw) r1.ev r2.ev m1 m2 hid
  rw [heq]

/-- Claim C7, witness: a one-event dataset rendered under the empty filter
set and under `{science}`: the event keeps its side. -/
theorem side_assignment_filter_invariant_witness :
    (⟨⟨0, 100, none, none, "left"⟩, false, 100⟩ : RenderItem).ev.side =
      (⟨⟨0, 100, none, none, "left"⟩, false, 100⟩ : RenderItem).ev.side :=
  side_assignment_filter_invariant [{ year := 100 }] ∅ {"science"}
    ⟨⟨0, 100, none, none, "left"⟩, false, 100⟩
    ⟨⟨0, 100, none, none, "left"⟩, false, 100⟩
    (by decide) (by decide) rfl

end HoloceneApp
